import Mathlib

/-!
# Verification of the hybrid TCP/UDP network simulation core

A shallow embedding, in Lean 4, of the event-driven packet-transport core of
the HYBRID-TCP-UDP-NETWORK-PROJECT repository (OMNeT++ modules under
src/Modules: helpers.h, pc.cc, http.cc, dns.cc, router.cc), together with
theorems settling the behavioural claims about it.

Modelling conventions:
- C++ `long` values that are non-negative in every code path relevant to a
  claim (node addresses, sequence numbers, cookies, counters) are embedded as
  `Nat`; values that the code compares against negative sentinels (router gate
  indices, parsed route fields) are embedded as `Int`.
- C++ `double` values (metrics, congestion windows, simulation times, rate
  limits) are embedded as `Rat`; no code path relevant to a claim depends on
  floating-point rounding, overflow or the default `INFINITY` metric of a
  default-constructed `RouteEntry` (every modelled path overwrites it).
- C++ `std::string` payloads are embedded as `List Nat` (byte sequences);
  `std::map` is embedded as a function into `Option`, with the
  `operator[]`-inserts-a-default behaviour spelled out at each use site.
- Each handler in the C++ modules is a run-to-completion reactor method; it is
  embedded as a pure function from the touched state (plus the message fields
  it reads) to the updated state plus an explicit description of the frames it
  emits.
-/

namespace HybridNet

/-! ## Shared helpers (src/Modules/helpers.h) -/

/-- Priority levels (helpers.h enum Priority): low=0, normal=1, high=2, critical=3. -/
def PRIORITY_LOW : Nat := 0
def PRIORITY_NORMAL : Nat := 1
def PRIORITY_HIGH : Nat := 2
def PRIORITY_CRITICAL : Nat := 3

/-- TCP connection states (helpers.h enum TCPState). -/
inductive TCPState where
  | closed | listen | synSent | synReceived | established
  | finWait | closeWait | closing | timeWait
  deriving DecidableEq, Repr

/-- Connection tracking record (helpers.h struct TCPConnection).
Strings are byte lists; times are rationals. -/
structure TCPConnection where
  remoteAddr : Nat
  state : TCPState
  sendSeq : Nat
  recvSeq : Nat
  cwnd : Rat
  ssthresh : Rat
  rtt : Rat
  lastSent : Rat
  sharedKey : List Nat
  deriving DecidableEq, Repr

/-- The C++ default constructor of TCPConnection:
remoteAddr 0, TCP_CLOSED, seqs 0, cwnd 1.0, ssthresh 64.0, rtt 0, lastSent 0,
empty shared key. -/
def TCPConnection.init : TCPConnection :=
  { remoteAddr := 0, state := .closed, sendSeq := 0, recvSeq := 0,
    cwnd := 1, ssthresh := 64, rtt := 0, lastSent := 0, sharedKey := [] }

/-- helpers.h generateSYNCookie: with the process-wide secret 0x5EED,
the cookie is the XOR-fold of (src, dst, seq, secret) on the low 24 bits,
with seq stolen into the upper bits. -/
def generateSYNCookie (src dst seq : Nat) : Nat :=
  ((src ^^^ dst ^^^ seq ^^^ 0x5EED) &&& 0xFFFFFF) ||| (seq <<< 24)

/-- helpers.h validateSYNCookie: compare the low 24 bits of the received
cookie with the low 24 bits of the recomputed cookie. -/
def validateSYNCookie (cookie src dst seq : Nat) : Bool :=
  (cookie &&& 0xFFFFFF) == (generateSYNCookie src dst seq &&& 0xFFFFFF)

/-- helpers.h simpleEncrypt: byte-wise XOR of the data with the key repeated
cyclically and the constant 0xAA. Out-of-range defaults of getD are never hit
for a non-empty key. -/
def simpleEncrypt (data key : List Nat) : List Nat :=
  (List.range data.length).map
    (fun i => data.getD i 0 ^^^ key.getD (i % key.length) 0 ^^^ 0xAA)

/-- helpers.h simpleDecrypt is literally simpleEncrypt (XOR is symmetric). -/
def simpleDecrypt (data key : List Nat) : List Nat :=
  simpleEncrypt data key

/-- helpers.h computeSharedSecret: concatenate the two keys and derive a
16-byte secret; the cast to char in the C++ is the mod-256 reduction. -/
def computeSharedSecret (myPrivate theirPublic : List Nat) : List Nat :=
  let combined := myPrivate ++ theirPublic
  (List.range 16).map (fun i => ((combined.getD (i % combined.length) 0 ^^^ 0x5A) + i) % 256)

/-! ## Client congestion control (src/Modules/pc.cc, PC::handleTCPAck and
PC::handleCongestionTimeout) -/

/-- PC::handleTCPAck lines 351-362: the new module-level congestion window
after an ACK. Slow start doubles below ssthresh; congestion avoidance adds
the reciprocal otherwise. (The handler also resets dupAckCount to 0.) -/
def pcHandleTCPAckCwnd (cwnd ssthresh : Rat) : Rat :=
  if cwnd < ssthresh then cwnd * 2 else cwnd + 1 / cwnd

/-! ## Helper lemmas on the cookie arithmetic -/

theorem generateSYNCookie_low24 (src dst seq : Nat) :
    generateSYNCookie src dst seq &&& 0xFFFFFF
      = (src ^^^ dst ^^^ seq ^^^ 0x5EED) &&& 0xFFFFFF := by
  unfold generateSYNCookie
  apply Nat.eq_of_testBit_eq
  intro i
  simp only [Nat.testBit_land, Nat.testBit_lor, Nat.testBit_shiftLeft]
  have h24 : (0xFFFFFF : Nat) = 2 ^ 24 - 1 := by norm_num
  rw [h24, Nat.testBit_two_pow_sub_one]
  by_cases h : i < 24
  · simp [h, Nat.not_le.mpr h]
  · simp [h]

theorem xor_key_cancel (x k a : Nat) : ((x ^^^ k ^^^ a) ^^^ k) ^^^ a = x := by
  have h1 : ((x ^^^ k ^^^ a) ^^^ k) ^^^ a = x ^^^ (k ^^^ a) ^^^ (k ^^^ a) := by
    rw [Nat.xor_assoc x k a, Nat.xor_assoc (x ^^^ (k ^^^ a)) k a]
  rw [h1, Nat.xor_assoc, Nat.xor_self, Nat.xor_zero]

theorem simpleDecrypt_simpleEncrypt (data key : List Nat) :
    simpleDecrypt (simpleEncrypt data key) key = data := by
  unfold simpleDecrypt
  apply List.ext_getElem
  · simp [simpleEncrypt]
  · intro i h1 h2
    have hi : i < data.length := h2
    have hlen : i < ((List.range data.length).map
        (fun j => data.getD j 0 ^^^ key.getD (j % key.length) 0 ^^^ 0xAA)).length := by
      simpa using hi
    simp only [simpleEncrypt, List.length_map, List.length_range,
      List.getElem_map, List.getElem_range]
    rw [List.getD_eq_getElem _ _ hlen]
    simp only [List.getElem_map, List.getElem_range]
    rw [List.getD_eq_getElem _ _ hi, xor_key_cancel]

/-! ## DNS server SYN handler (src/Modules/dns.cc, DNS::handleTCPSyn
lines 167-198), used by claim C2's silent-drop property. -/

/-- A TCP SYN-ACK frame as built by the servers: src, dst, seq, ack,
priority, and the synCookie attribute. -/
structure SynAck where
  src : Nat
  dst : Nat
  seq : Nat
  ack : Nat
  priority : Nat
  synCookie : Nat
  deriving DecidableEq, Repr

/-- DNS::handleTCPSyn: validate the cookie against (src, addr, seq); on
failure drop silently (no reply, no state change). On success emit a SYN-ACK
carrying a fresh server sequence (the intuniform draw is passed in as
serverSeq) and install a SYN_RECEIVED connection for src. -/
def dnsHandleTCPSyn (conns : Nat → Option TCPConnection) (addr : Nat)
    (src seq cookie serverSeq : Nat) :
    (Nat → Option TCPConnection) × Option SynAck :=
  if validateSYNCookie cookie src addr seq = false then
    (conns, none)
  else
    let synAck : SynAck :=
      { src := addr, dst := src, seq := serverSeq, ack := seq + 1,
        priority := PRIORITY_HIGH, synCookie := generateSYNCookie addr src serverSeq }
    let conn : TCPConnection :=
      { TCPConnection.init with
        remoteAddr := src, state := .synReceived,
        sendSeq := serverSeq + 1, recvSeq := seq + 1 }
    (fun a => if a = src then some conn else conns a, some synAck)

/-! ## Claim theorems C2, C5, C6 -/

/-- Claim C2: validateSYNCookie(cookie, src, dst, seq) returns true iff the
low 24 bits of cookie equal the low 24 bits of
generateSYNCookie(src, dst, seq) computed with the process-wide secret; a
cookie produced by generateSYNCookie always validates against the same
(src, dst, seq); and a server (DNS::handleTCPSyn) drops a SYN whose cookie
fails the check without replying and without touching its connection map. -/
theorem C2_syn_cookie_validation (cookie src dst seq : Nat) :
    (validateSYNCookie cookie src dst seq = true ↔
       cookie &&& 0xFFFFFF = generateSYNCookie src dst seq &&& 0xFFFFFF)
    ∧ validateSYNCookie (generateSYNCookie src dst seq) src dst seq = true
    ∧ (∀ (conns : Nat → Option TCPConnection) (addr srcA seqA cookieA sSeq : Nat),
         validateSYNCookie cookieA srcA addr seqA = false →
         dnsHandleTCPSyn conns addr srcA seqA cookieA sSeq = (conns, none)) := by
  refine ⟨?_, ?_, ?_⟩
  · simp [validateSYNCookie]
  · simp [validateSYNCookie]
  · intro conns addr srcA seqA cookieA sSeq h
    simp [dnsHandleTCPSyn, h]

/-- Witness for C2: concrete instantiation; the invalid-cookie branch is
exercised at cookie 0 against (src, dst, seq) = (5, 2, 1234). -/
theorem C2_syn_cookie_validation_witness :
    validateSYNCookie 0 5 2 1234 = false ∧
    dnsHandleTCPSyn (fun _ => none) 2 5 1234 0 4321 = (fun _ => none, none) := by
  refine ⟨by decide, ?_⟩
  exact (C2_syn_cookie_validation 0 5 2 1234).2.2 (fun _ => none) 2 5 1234 0 4321 (by decide)

/-- Claim C5: for every ACK handled by the client with cwnd at least 1.0 the
congestion window never decreases; it doubles in slow start (cwnd < ssthresh)
and grows by 1/cwnd in congestion avoidance. -/
theorem C5_cwnd_monotone_on_ack (cwnd ssthresh : Rat) (h : 1 ≤ cwnd) :
    cwnd ≤ pcHandleTCPAckCwnd cwnd ssthresh
    ∧ (cwnd < ssthresh → pcHandleTCPAckCwnd cwnd ssthresh = 2 * cwnd)
    ∧ (¬ cwnd < ssthresh → pcHandleTCPAckCwnd cwnd ssthresh = cwnd + 1 / cwnd) := by
  unfold pcHandleTCPAckCwnd
  by_cases hc : cwnd < ssthresh
  · refine ⟨?_, fun _ => by rw [if_pos hc]; ring, fun hn => absurd hc hn⟩
    rw [if_pos hc]
    nlinarith
  · refine ⟨?_, fun hy => absurd hy hc, fun _ => by rw [if_neg hc]⟩
    rw [if_neg hc]
    have hpos : 0 < cwnd := lt_of_lt_of_le one_pos h
    have : 0 < 1 / cwnd := by positivity
    linarith

/-- Witness for C5 at cwnd = 4, ssthresh = 64 (slow-start branch). -/
theorem C5_cwnd_monotone_on_ack_witness :
    (4 : Rat) ≤ pcHandleTCPAckCwnd 4 64 ∧ pcHandleTCPAckCwnd 4 64 = 2 * 4 := by
  have h := C5_cwnd_monotone_on_ack 4 64 (by norm_num)
  exact ⟨h.1, h.2.1 (by norm_num)⟩

/-- Claim C6: the XOR encryption is an involution: for every byte string x
and every non-empty key k, simpleDecrypt (simpleEncrypt x k) k = x. -/
theorem C6_xor_involution (x k : List Nat) (_hk : k ≠ []) :
    simpleDecrypt (simpleEncrypt x k) k = x :=
  simpleDecrypt_simpleEncrypt x k

/-- Witness for C6 on the bytes of a concrete string and key. -/
theorem C6_xor_involution_witness :
    ([107, 5] : List Nat) ≠ [] ∧
    simpleDecrypt (simpleEncrypt [104, 116, 116, 112] [107, 5]) [107, 5]
      = [104, 116, 116, 112] :=
  ⟨by decide, C6_xor_involution [104, 116, 116, 112] [107, 5] (by decide)⟩

/-! ## Router control plane (src/Modules/router.cc) -/

/-- Routing table entry (helpers.h struct RouteEntry). The C++ default
constructor sets metric = INFINITY and hopCount = 999; no modelled code path
reads a default-constructed metric, so entries are always built with all
claim-relevant fields assigned (bandwidth and delay keep the values the
distance-vector import leaves them at, namely the defaults 0). -/
structure RouteEntry where
  destAddr : Int
  nextHop : Int
  metric : Rat
  bandwidth : Rat
  delay : Rat
  hopCount : Int
  lastUpdate : Rat
  deriving DecidableEq, Repr

/-- One advertised triple of Router::handleRIPUpdate lines 322-343: for
(dest, metric, hops) compute (metric+1, hops+1); skip entirely when
hops+1 is not below 16; otherwise install a new entry with next-hop =
arrival gate exactly when dest is unknown or the new metric is strictly
below the stored one. -/
def ripShouldInstall (rt : Int → Option RouteEntry) (dest : Int)
    (newMetric : Rat) : Bool :=
  match rt dest with
  | none => true
  | some e => decide (newMetric < e.metric)

def ripImportStep (inGate : Int) (now : Rat) (rt : Int → Option RouteEntry)
    (adv : Int × Rat × Int) : Int → Option RouteEntry :=
  if adv.2.2 + 1 < 16 then
    if ripShouldInstall rt adv.1 (adv.2.1 + 1) then
      fun d => if d = adv.1 then
          some { destAddr := adv.1, nextHop := inGate, metric := adv.2.1 + 1,
                 bandwidth := 0, delay := 0, hopCount := adv.2.2 + 1,
                 lastUpdate := now }
        else rt d
    else rt
  else rt

/-- Router::handleRIPUpdate lines 312-351: process the advertised triples of
one update, in order, against the routing table. (The parse of the
comma-separated routes string is represented by the list of parsed triples;
items that fail the sscanf are skipped by the source and absent here.) -/
def handleRIPUpdate (rt : Int → Option RouteEntry) (inGate : Int) (now : Rat)
    (advs : List (Int × Rat × Int)) : Int → Option RouteEntry :=
  advs.foldl (ripImportStep inGate now) rt

theorem ripImportStep_hop_bound (inGate : Int) (now : Rat)
    (rt : Int → Option RouteEntry) (adv : Int × Rat × Int) (d : Int)
    (e : RouteEntry) (h : ripImportStep inGate now rt adv d = some e) :
    rt d = some e ∨ e.hopCount < 16 := by
  unfold ripImportStep at h
  by_cases hh : adv.2.2 + 1 < 16
  · rw [if_pos hh] at h
    by_cases hin : ripShouldInstall rt adv.1 (adv.2.1 + 1) = true
    · rw [if_pos hin] at h
      by_cases hd : d = adv.1
      · rw [if_pos hd] at h
        cases h
        exact Or.inr hh
      · rw [if_neg hd] at h
        exact Or.inl h
    · rw [if_neg hin] at h
      exact Or.inl h
  · rw [if_neg hh] at h
    exact Or.inl h

theorem handleRIPUpdate_hop_bound (inGate : Int) (now : Rat)
    (advs : List (Int × Rat × Int)) :
    ∀ (rt : Int → Option RouteEntry) (d : Int) (e : RouteEntry),
      handleRIPUpdate rt inGate now advs d = some e →
      rt d = some e ∨ e.hopCount < 16 := by
  induction advs with
  | nil => intro rt d e h; exact Or.inl h
  | cons a rest ih =>
    intro rt d e h
    have h' := ih (ripImportStep inGate now rt a) d e h
    rcases h' with h' | h'
    · exact ripImportStep_hop_bound inGate now rt a d e h'
    · exact Or.inr h'

/-- Claim C3: for every advertised triple (dest, metric, hops) of a
distance-vector update received on gate inGate: the router computes
(metric+1, hops+1); when hops+1 reaches 16 the triple is skipped and the
table is unchanged; otherwise a new entry with next-hop inGate, metric
metric+1 and hop count hops+1 is installed exactly when dest is unknown or
metric+1 is strictly below the stored metric; and every entry a
distance-vector import adds or replaces has hop count strictly below 16. -/
theorem C3_rip_import (inGate : Int) (now : Rat) (rt : Int → Option RouteEntry)
    (dest : Int) (metric : Rat) (hops : Int) :
    (¬ hops + 1 < 16 → ripImportStep inGate now rt (dest, metric, hops) = rt)
    ∧ (hops + 1 < 16 →
        ((rt dest = none ∨ ∃ e, rt dest = some e ∧ metric + 1 < e.metric) →
          ripImportStep inGate now rt (dest, metric, hops)
            = fun d => if d = dest then
                some { destAddr := dest, nextHop := inGate, metric := metric + 1,
                       bandwidth := 0, delay := 0, hopCount := hops + 1,
                       lastUpdate := now }
              else rt d)
        ∧ (∀ e, rt dest = some e → ¬ metric + 1 < e.metric →
            ripImportStep inGate now rt (dest, metric, hops) = rt))
    ∧ (∀ (advs : List (Int × Rat × Int)) (d : Int) (e : RouteEntry),
        handleRIPUpdate rt inGate now advs d = some e →
        rt d = some e ∨ e.hopCount < 16) := by
  refine ⟨?_, fun hh => ⟨?_, ?_⟩, ?_⟩
  · intro h
    unfold ripImportStep
    rw [if_neg h]
  · intro hinst
    have hin : ripShouldInstall rt dest (metric + 1) = true := by
      unfold ripShouldInstall
      rcases hinst with hnone | ⟨e, he, hlt⟩
      · rw [hnone]
      · rw [he]
        simpa using hlt
    unfold ripImportStep
    rw [if_pos hh, if_pos hin]
  · intro e he hge
    have hin : ripShouldInstall rt dest (metric + 1) = false := by
      unfold ripShouldInstall
      rw [he]
      simpa using hge
    unfold ripImportStep
    rw [if_pos hh, hin]
    simp
  · intro advs d e h
    exact handleRIPUpdate_hop_bound inGate now advs rt d e h

/-- Witness for C3: the skip branch at hops = 15 and the install branch on an
unknown destination at hops = 2, both on the empty table. -/
theorem C3_rip_import_witness :
    ripImportStep 2 0 (fun _ => none) (7, 3, 15) = (fun _ => none)
    ∧ ripImportStep 2 0 (fun _ => none) (7, 3, 2) 7
        = some { destAddr := 7, nextHop := 2, metric := 4, bandwidth := 0,
                 delay := 0, hopCount := 3, lastUpdate := 0 } := by
  constructor
  · exact (C3_rip_import 2 0 (fun _ => none) 7 3 15).1 (by norm_num)
  · have h := ((C3_rip_import 2 0 (fun _ => none) 7 3 2).2.1 (by norm_num)).1
      (Or.inl rfl)
    rw [congrFun h 7]
    norm_num

/-- Link-state record (helpers.h struct LinkState). -/
structure LinkState where
  routerId : Int
  linkId : Int
  cost : Rat
  bandwidth : Rat
  delay : Rat
  timestamp : Rat
  deriving DecidableEq, Repr

/-- The link-state database update of Router::handleOSPFLSA lines 253-269:
build a record from the received cost/bandwidth/delay, stamp it with the
arrival time, and store it unconditionally under the key
originRouter * 1000 + linkId. (The re-flood on the other gates, lines
274-280, does not touch the database and is not needed by the claims.) -/
def handleOSPFLSA (db : Int → Option LinkState) (originRouter linkId : Int)
    (cost bandwidth delay : Rat) (now : Rat) : Int → Option LinkState :=
  fun k => if k = originRouter * 1000 + linkId then
      some { routerId := originRouter, linkId := linkId, cost := cost,
             bandwidth := bandwidth, delay := delay, timestamp := now }
    else db k

/-- Counterexample to claim C4: the handler has no staleness check. A record
for key (origin 1, link 0) is held with timestamp 10; an LSA for the same key
processed at the earlier instant 3 (i.e. older than the record held) does not
leave the stored record unchanged — it overwrites it. -/
theorem C4_counterexample :
    (handleOSPFLSA (fun _ => none) 1 0 5 100 1 10) 1000
        = some { routerId := 1, linkId := 0, cost := 5, bandwidth := 100,
                 delay := 1, timestamp := 10 }
    ∧ (3 : Rat) < 10
    ∧ handleOSPFLSA (handleOSPFLSA (fun _ => none) 1 0 5 100 1 10) 1 0 7 100 1 3 1000
        = some { routerId := 1, linkId := 0, cost := 7, bandwidth := 100,
                 delay := 1, timestamp := 3 }
    ∧ handleOSPFLSA (handleOSPFLSA (fun _ => none) 1 0 5 100 1 10) 1 0 7 100 1 3 1000
        ≠ (handleOSPFLSA (fun _ => none) 1 0 5 100 1 10) 1000 := by
  refine ⟨by decide, by norm_num, by decide, by decide⟩

/-- Claim C4 as amended: for every key the stored timestamp never decreases
over a run — each processed LSA stamps the record with the current,
non-decreasing arrival time — but no received LSA is ever ignored: processing
an LSA unconditionally replaces the stored record for its key with a record
timestamped at the arrival time, even when the held record is newer. -/
theorem C4_lsa_timestamp_monotone (db : Int → Option LinkState)
    (origin linkId : Int) (cost bandwidth delay now : Rat) :
    ((∀ k ls, db k = some ls → ls.timestamp ≤ now) →
      ∀ k ls ls', db k = some ls →
        handleOSPFLSA db origin linkId cost bandwidth delay now k = some ls' →
        ls.timestamp ≤ ls'.timestamp)
    ∧ handleOSPFLSA db origin linkId cost bandwidth delay now
        (origin * 1000 + linkId)
        = some { routerId := origin, linkId := linkId, cost := cost,
                 bandwidth := bandwidth, delay := delay, timestamp := now } := by
  constructor
  · intro hbound k ls ls' hdb hres
    unfold handleOSPFLSA at hres
    by_cases hk : k = origin * 1000 + linkId
    · rw [if_pos hk] at hres
      cases hres
      exact hbound k ls hdb
    · rw [if_neg hk] at hres
      rw [hdb] at hres
      cases hres
      exact le_refl _
  · unfold handleOSPFLSA
    rw [if_pos rfl]

/-- Witness for C4 as amended: a database holding one record with timestamp 2
is processed at time 10; the stored timestamp for that key grows from 2 to
10, and the record is the unconditional overwrite. -/
theorem C4_lsa_timestamp_monotone_witness :
    (2 : Rat) ≤
      ({ routerId := 1, linkId := 0, cost := 7, bandwidth := 100, delay := 1,
         timestamp := 10 } : LinkState).timestamp
    ∧ handleOSPFLSA (fun _ => none) 1 0 7 100 1 10 (1 * 1000 + 0)
        = some { routerId := 1, linkId := 0, cost := 7, bandwidth := 100,
                 delay := 1, timestamp := 10 } := by
  constructor
  · have hbound : ∀ (k : Int) (ls : LinkState),
        (fun j => if j = (1000 : Int) then
            some ({ routerId := 1, linkId := 0, cost := 5, bandwidth := 100,
                    delay := 1, timestamp := 2 } : LinkState)
          else none) k = some ls → ls.timestamp ≤ 10 := by
      intro k ls h
      replace h : (if k = (1000 : Int) then
          some ({ routerId := 1, linkId := 0, cost := 5, bandwidth := 100,
                  delay := 1, timestamp := 2 } : LinkState)
        else none) = some ls := h
      by_cases hk : k = (1000 : Int)
      · rw [if_pos hk] at h
        cases h
        norm_num
      · rw [if_neg hk] at h
        cases h
    have h := (C4_lsa_timestamp_monotone
        (fun j => if j = (1000 : Int) then
            some ({ routerId := 1, linkId := 0, cost := 5, bandwidth := 100,
                    delay := 1, timestamp := 2 } : LinkState)
          else none) 1 0 7 100 1 10).1 hbound 1000
        { routerId := 1, linkId := 0, cost := 5, bandwidth := 100, delay := 1,
          timestamp := 2 }
        { routerId := 1, linkId := 0, cost := 7, bandwidth := 100, delay := 1,
          timestamp := 10 }
        (by decide) (by decide)
    exact h
  · exact (C4_lsa_timestamp_monotone (fun _ => none) 1 0 7 100 1 10).2

/-! ## Server key exchange (src/Modules/dns.cc DNS::handleKeyExchange lines
145-165 and src/Modules/http.cc HTTP::handleKeyExchange lines 172-191; the
two bodies are line-for-line identical) -/

/-- A KEY_EXCHANGE reply frame carrying the server's public key. -/
structure KeyExchangeReply where
  src : Nat
  dst : Nat
  publicKey : List Nat
  priority : Nat
  deriving DecidableEq, Repr

/-- The servers' handleKeyExchange: compute the shared secret and store it
under the peer address; then test whether no key is held for the peer
(map lookup misses, or the held string is empty) and reply with the server
public key only if the test succeeds; finally store the secret again. The
test runs after the first store, so it observes the just-stored secret. -/
def serverHandleKeyExchange (sharedKeys : Nat → Option (List Nat)) (addr : Nat)
    (myPrivateKey myPublicKey : List Nat) (peerAddr : Nat)
    (peerPublicKey : List Nat) :
    (Nat → Option (List Nat)) × Option KeyExchangeReply :=
  let sharedSecret := computeSharedSecret myPrivateKey peerPublicKey
  let keys1 : Nat → Option (List Nat) :=
    fun a => if a = peerAddr then some sharedSecret else sharedKeys a
  let reply : Option KeyExchangeReply :=
    if keys1 peerAddr = none ∨ (keys1 peerAddr).getD [] = [] then
      some { src := addr, dst := peerAddr, publicKey := myPublicKey,
             priority := PRIORITY_HIGH }
    else none
  (fun a => if a = peerAddr then some sharedSecret else keys1 a, reply)

theorem computeSharedSecret_ne_nil (myPrivate theirPublic : List Nat) :
    computeSharedSecret myPrivate theirPublic ≠ [] := by
  intro h
  have hlen := congrArg List.length h
  simp [computeSharedSecret] at hlen

/-- Claim C7 fails on the code: the servers never reply to a key-exchange
frame, not even when no shared key is held for the peer, because the
"no key held yet" test runs after the secret (always 16 bytes, never empty)
has been stored. The shared key is still updated. The concrete conjuncts
evaluate the handler at the failing input: a first key exchange from peer 7
to a server holding no keys at all. -/
theorem C7_key_exchange_no_reply :
    (∀ (sharedKeys : Nat → Option (List Nat)) (addr : Nat)
       (myPrivateKey myPublicKey : List Nat) (peerAddr : Nat)
       (peerPublicKey : List Nat),
       (serverHandleKeyExchange sharedKeys addr myPrivateKey myPublicKey
          peerAddr peerPublicKey).2 = none)
    ∧ (fun _ => (none : Option (List Nat))) 7 = none
    ∧ (serverHandleKeyExchange (fun _ => none) 2 [10] [20] 7 [30]).2 = none
    ∧ (serverHandleKeyExchange (fun _ => none) 2 [10] [20] 7 [30]).1 7
        = some (computeSharedSecret [10] [30]) := by
  have hmain : ∀ (sharedKeys : Nat → Option (List Nat)) (addr : Nat)
      (myPrivateKey myPublicKey : List Nat) (peerAddr : Nat)
      (peerPublicKey : List Nat),
      (serverHandleKeyExchange sharedKeys addr myPrivateKey myPublicKey
         peerAddr peerPublicKey).2 = none := by
    intro sharedKeys addr myPrivateKey myPublicKey peerAddr peerPublicKey
    unfold serverHandleKeyExchange
    simp [computeSharedSecret_ne_nil]
  refine ⟨hmain, rfl, hmain _ _ _ _ _ _, ?_⟩
  unfold serverHandleKeyExchange
  simp

/-! ## TCP FIN teardown (src/Modules/http.cc HTTP::handleTCPFin lines
284-299; src/Modules/pc.cc PC::handleTCPFin lines 405-416) -/

/-- A TCP FIN reply frame. -/
structure FinReply where
  src : Nat
  dst : Nat
  priority : Nat
  deriving DecidableEq, Repr

/-- HTTP::handleTCPFin: reply with a FIN at normal priority and erase the
peer from tcpConnections, cwndMap and ssthreshMap. -/
def httpHandleTCPFin (conns : Nat → Option TCPConnection)
    (cwndMap ssthreshMap : Nat → Option Rat) (addr src : Nat) :
    (Nat → Option TCPConnection) × (Nat → Option Rat) × (Nat → Option Rat)
      × FinReply :=
  (fun a => if a = src then none else conns a,
   fun a => if a = src then none else cwndMap a,
   fun a => if a = src then none else ssthreshMap a,
   { src := addr, dst := src, priority := PRIORITY_NORMAL })

/-- PC::handleTCPFin: reply with a FIN at normal priority and set
tcpConnections[peerAddr].state = TCP_CLOSED. The operator[] access
default-constructs an entry when the peer is unknown; the entry is kept in
the map, only its state changes. -/
def pcHandleTCPFin (conns : Nat → Option TCPConnection) (addr peerAddr : Nat) :
    (Nat → Option TCPConnection) × FinReply :=
  (fun a => if a = peerAddr then
      some { (conns peerAddr).getD TCPConnection.init with state := .closed }
    else conns a,
   { src := addr, dst := peerAddr, priority := PRIORITY_NORMAL })

/-- Counterexample to claim C8: the client PC does not remove the peer's
entry on FIN. With an established connection to peer 5 in the map,
PC::handleTCPFin leaves an entry for 5 present (state TCP_CLOSED), so the
connection is marked closed, not destroyed. -/
theorem C8_counterexample :
    (pcHandleTCPFin
        (fun a => if a = 5 then
            some { TCPConnection.init with
                    remoteAddr := 5, state := .established,
                    sendSeq := 1001, recvSeq := 2001 }
          else none) 1 5).1 5
      = some { TCPConnection.init with
                remoteAddr := 5, state := .closed,
                sendSeq := 1001, recvSeq := 2001 }
    ∧ (pcHandleTCPFin
        (fun a => if a = 5 then
            some { TCPConnection.init with
                    remoteAddr := 5, state := .established,
                    sendSeq := 1001, recvSeq := 2001 }
          else none) 1 5).1 5 ≠ none := by
  refine ⟨by decide, by decide⟩

/-- Claim C8 as amended: on receiving a TCP FIN both endpoints send a FIN
reply at normal priority; the server (HTTP) removes the peer's entry from
its connection map (and its cwnd/ssthresh maps), while the client (PC) keeps
an entry for the peer and merely sets its state to TCP_CLOSED. -/
theorem C8_fin_teardown (conns : Nat → Option TCPConnection)
    (cwndMap ssthreshMap : Nat → Option Rat) (addr src : Nat) :
    (httpHandleTCPFin conns cwndMap ssthreshMap addr src).1 src = none
    ∧ (httpHandleTCPFin conns cwndMap ssthreshMap addr src).2.1 src = none
    ∧ (httpHandleTCPFin conns cwndMap ssthreshMap addr src).2.2.1 src = none
    ∧ (httpHandleTCPFin conns cwndMap ssthreshMap addr src).2.2.2
        = { src := addr, dst := src, priority := PRIORITY_NORMAL }
    ∧ (pcHandleTCPFin conns addr src).2
        = { src := addr, dst := src, priority := PRIORITY_NORMAL }
    ∧ (∃ c, (pcHandleTCPFin conns addr src).1 src = some c
          ∧ c.state = .closed) := by
  refine ⟨by simp [httpHandleTCPFin], by simp [httpHandleTCPFin],
    by simp [httpHandleTCPFin], rfl, rfl, ?_⟩
  refine ⟨{ (conns src).getD TCPConnection.init with state := .closed }, ?_, rfl⟩
  simp [pcHandleTCPFin]

/-! ## SYN-flood limiter of the HTTP server (src/Modules/http.cc,
HTTP::handleTCPSyn lines 193-241 and the synFloodCheckTimer sweep in
HTTP::handleSelfMessage lines 98-110) -/

/-- The per-source SYN tracking state: synCounts is the C++
map&lt;long,int&gt; read through operator[] (absent entries read as 0),
synTimestamps keeps the arrival time of the most recent SYN per source. -/
structure HTTPSynState where
  synCounts : Nat → Nat
  synStamps : Nat → Option Rat

/-- What HTTP::handleTCPSyn does with one SYN. -/
inductive SynOutcome where
  | rateDropped
  | cookieDropped
  | synAckSent (reply : SynAck)
  deriving DecidableEq, Repr

/-- HTTP::handleTCPSyn: increment the per-source counter and stamp the
arrival time; drop (before any cookie validation) when the incremented
counter exceeds synRateLimit; then drop on an invalid cookie; otherwise emit
a SYN-ACK (the intuniform draw is passed in as serverSeq) and install a
SYN_RECEIVED connection with cwnd 1.0 and ssthresh 64.0. (The redundant
cwndMap/ssthreshMap stores of lines 236-237 duplicate the connection fields
and are omitted.) -/
def httpHandleTCPSyn (st : HTTPSynState) (conns : Nat → Option TCPConnection)
    (addr : Nat) (synRateLimit : Rat) (now : Rat)
    (src seq cookie serverSeq : Nat) :
    HTTPSynState × (Nat → Option TCPConnection) × SynOutcome :=
  let st1 : HTTPSynState :=
    ⟨fun a => if a = src then st.synCounts src + 1 else st.synCounts a,
     fun a => if a = src then some now else st.synStamps a⟩
  if ((st.synCounts src + 1 : Nat) : Rat) > synRateLimit then
    (st1, conns, .rateDropped)
  else if validateSYNCookie cookie src addr seq = false then
    (st1, conns, .cookieDropped)
  else
    let synAck : SynAck :=
      { src := addr, dst := src, seq := serverSeq, ack := seq + 1,
        priority := PRIORITY_HIGH,
        synCookie := generateSYNCookie addr src serverSeq }
    let conn : TCPConnection :=
      { TCPConnection.init with
        remoteAddr := src, state := .synReceived,
        sendSeq := serverSeq + 1, recvSeq := seq + 1, cwnd := 1, ssthresh := 64 }
    (st1, fun a => if a = src then some conn else conns a, .synAckSent synAck)

/-- The synFloodCheckTimer sweep: erase every tracking entry whose timestamp
is more than 60 seconds old (erasing the counter resets the operator[] read
to 0) and reschedule the sweep one simulation second later. -/
def synFloodSweep (st : HTTPSynState) (now : Rat) : HTTPSynState × Rat :=
  (⟨fun a => match st.synStamps a with
      | some ts => if now - ts > 60 then 0 else st.synCounts a
      | none => st.synCounts a,
    fun a => match st.synStamps a with
      | some ts => if now - ts > 60 then none else some ts
      | none => none⟩,
   now + 1)

/-- A burst of SYNs from one source: thread the tracking state and the
connection map through HTTP::handleTCPSyn once per element
(now, seq, cookie, serverSeq), collecting the outcomes. -/
def runSyns (addr : Nat) (synRateLimit : Rat) (src : Nat) :
    HTTPSynState × (Nat → Option TCPConnection) →
    List (Rat × Nat × Nat × Nat) →
    (HTTPSynState × (Nat → Option TCPConnection)) × List SynOutcome
  | sc, [] => (sc, [])
  | (st, conns), p :: rest =>
      let r := httpHandleTCPSyn st conns addr synRateLimit p.1 src
        p.2.1 p.2.2.1 p.2.2.2
      let rest' := runSyns addr synRateLimit src (r.1, r.2.1) rest
      (rest'.1, r.2.2 :: rest'.2)

theorem httpHandleTCPSyn_counts (st : HTTPSynState)
    (conns : Nat → Option TCPConnection) (addr : Nat) (synRateLimit now : Rat)
    (src seq cookie serverSeq : Nat) :
    (httpHandleTCPSyn st conns addr synRateLimit now src seq cookie
        serverSeq).1.synCounts src = st.synCounts src + 1 := by
  unfold httpHandleTCPSyn
  split_ifs <;> simp

theorem httpHandleTCPSyn_rateDropped_iff (st : HTTPSynState)
    (conns : Nat → Option TCPConnection) (addr : Nat) (synRateLimit now : Rat)
    (src seq cookie serverSeq : Nat) :
    (httpHandleTCPSyn st conns addr synRateLimit now src seq cookie
        serverSeq).2.2 = .rateDropped
      ↔ (st.synCounts src : Rat) + 1 > synRateLimit := by
  unfold httpHandleTCPSyn
  split_ifs with h1 h2
  · exact iff_of_true rfl (by push_cast at h1; linarith)
  · refine iff_of_false (fun h => by cases h) (fun hb => h1 ?_)
    push_cast
    linarith
  · refine iff_of_false (fun h => by cases h) (fun hb => h1 ?_)
    push_cast
    linarith

theorem runSyns_outcome (addr : Nat) (synRateLimit : Rat) (src : Nat) :
    ∀ (ps : List (Rat × Nat × Nat × Nat)) (st : HTTPSynState)
      (conns : Nat → Option TCPConnection) (i : Nat) (o : SynOutcome),
      (runSyns addr synRateLimit src (st, conns) ps).2[i]? = some o →
      (o = .rateDropped ↔ (st.synCounts src : Rat) + i + 1 > synRateLimit) := by
  intro ps
  induction ps with
  | nil =>
    intro st conns i o h
    simp [runSyns] at h
  | cons p rest ih =>
    intro st conns i o h
    match i with
    | 0 =>
      simp only [runSyns, List.getElem?_cons_zero, Option.some.injEq] at h
      subst h
      rw [httpHandleTCPSyn_rateDropped_iff]
      push_cast
      constructor <;> (intro hx; linarith)
    | Nat.succ j =>
      simp only [runSyns, List.getElem?_cons_succ] at h
      have h' := ih _ _ j o h
      rw [httpHandleTCPSyn_counts] at h'
      rw [h']
      push_cast
      constructor <;> (intro hx; linarith)

/-- Claim C9: each received SYN increments the per-source counter; the SYN is
dropped before any cookie validation exactly when the incremented counter
exceeds synRateLimit; for a fresh source the i-th SYN of a burst (0-indexed)
escapes the rate drop exactly when i+1 is at most the limit, so the first L
SYNs reach the cookie check and the rest are dropped; and the sweep evicts
exactly the tracking entries whose timestamp is more than 60 seconds old and
reschedules itself 1 simulation second later. -/
theorem C9_syn_flood_limiter (st : HTTPSynState)
    (conns : Nat → Option TCPConnection) (addr : Nat) (synRateLimit now : Rat)
    (src seq cookie serverSeq : Nat) :
    (httpHandleTCPSyn st conns addr synRateLimit now src seq cookie
        serverSeq).1.synCounts src = st.synCounts src + 1
    ∧ ((httpHandleTCPSyn st conns addr synRateLimit now src seq cookie
        serverSeq).2.2 = .rateDropped
        ↔ (st.synCounts src : Rat) + 1 > synRateLimit)
    ∧ (∀ (ps : List (Rat × Nat × Nat × Nat)) (i : Nat) (o : SynOutcome),
        st.synCounts src = 0 →
        (runSyns addr synRateLimit src (st, conns) ps).2[i]? = some o →
        (o ≠ .rateDropped ↔ (i : Rat) + 1 ≤ synRateLimit))
    ∧ (∀ a, (synFloodSweep st now).1.synStamps a = none ↔
        (st.synStamps a = none ∨ ∃ ts, st.synStamps a = some ts ∧ now - ts > 60))
    ∧ (synFloodSweep st now).2 = now + 1 := by
  refine ⟨httpHandleTCPSyn_counts st conns addr synRateLimit now src seq cookie
      serverSeq,
    httpHandleTCPSyn_rateDropped_iff st conns addr synRateLimit now src seq
      cookie serverSeq, ?_, ?_, rfl⟩
  · intro ps i o h0 h
    have h' := runSyns_outcome addr synRateLimit src ps st conns i o h
    rw [h0] at h'
    push_cast at h'
    have h2 := not_congr h'
    rw [not_lt] at h2
    simpa using h2
  · intro a
    unfold synFloodSweep
    cases hs : st.synStamps a with
    | none => simp [hs]
    | some ts =>
      by_cases hts : now - ts > 60
      · simp [hs, hts]
      · simp [hs, hts]

/-- Witness for C9: with synRateLimit 0 even the first SYN from the fresh
source 99 is rate-dropped, and the instantiated characterization agrees. -/
theorem C9_syn_flood_limiter_witness :
    (⟨fun _ => 0, fun _ => none⟩ : HTTPSynState).synCounts 99 = 0
    ∧ (runSyns 3 0 99 (⟨fun _ => 0, fun _ => none⟩, fun _ => none)
        [(0, 1234, 0, 555)]).2[0]? = some SynOutcome.rateDropped
    ∧ (SynOutcome.rateDropped ≠ SynOutcome.rateDropped
        ↔ ((0 : Nat) : Rat) + 1 ≤ 0) := by
  refine ⟨rfl, by decide, ?_⟩
  exact (C9_syn_flood_limiter ⟨fun _ => 0, fun _ => none⟩ (fun _ => none)
    3 0 0 99 1234 0 555).2.2.1 [(0, 1234, 0, 555)] 0 SynOutcome.rateDropped
    rfl (by decide)

/-! ## Per-gate transmission serializer (src/Modules/pc.cc
PC::sendPacketOnGate / PC::startTransmission lines 151-188 and the endTx
branch of PC::handleSelfMessage lines 140-147; dns.cc and http.cc carry
identical copies for their single gate) -/

/-- The transmit-side state of one output gate: the channel's
transmission-finish time, the local FIFO of (frame, duration) pairs waiting
for the channel, the scheduled end-of-transmission self-event if any, and
the log of transmissions handed to the channel as (frame, start, finish)
intervals. -/
structure TxState where
  busyUntil : Rat
  txQueue : List (Nat × Rat)
  endTx : Option Rat
  transmitted : List (Nat × Rat × Rat)
  deriving DecidableEq, Repr

/-- Initial transmitter state: idle channel, empty FIFO, no endTx event. -/
def txInit : TxState :=
  { busyUntil := 0, txQueue := [], endTx := none, transmitted := [] }

/-- startTransmission: hand the frame to the channel (its transmission
occupies the interval from now to now + dur), read back the channel's new
finish time and schedule the endTx self-event there. -/
def startTransmission (s : TxState) (f : Nat) (dur now : Rat) : TxState :=
  { busyUntil := now + dur,
    txQueue := s.txQueue,
    endTx := some (now + dur),
    transmitted := s.transmitted ++ [(f, now, now + dur)] }

/-- The events that touch one gate's transmit state: sendPacketOnGate for a
frame at time t; the endTx self-message firing at its scheduled time; and a
sendDelayed frame reaching the gate at time t without passing through
sendPacketOnGate (the bypass used by HTTP::handleHTTPGet and
HTTP::handleUDPRequest for priority responses). -/
inductive TxEvent where
  | enqueue (f : Nat) (dur : Rat) (t : Rat)
  | endTxFire (t : Rat)
  | bypass (f : Nat) (dur : Rat) (t : Rat)
  deriving DecidableEq, Repr

/-- One event against the transmit state. sendPacketOnGate: when the channel
is busy past now, or an endTx event is pending, append to the FIFO;
otherwise transmit immediately. endTx: clear the event and, if the FIFO is
non-empty, pop its head and start transmitting it. A bypass frame reaches
the channel unconditionally (OMNeT++ raises a channel-busy error if a
transmission is in progress at that instant; the model records the resulting
overlapping occupancy). -/
def txStep (s : TxState) (e : TxEvent) : TxState :=
  match e with
  | .enqueue f dur t =>
      if s.busyUntil > t ∨ s.endTx ≠ none then
        { s with txQueue := s.txQueue ++ [(f, dur)] }
      else startTransmission s f dur t
  | .endTxFire t =>
      if s.endTx = some t then
        match s.txQueue with
        | [] => { s with endTx := none }
        | (f, dur) :: rest =>
            startTransmission { s with txQueue := rest, endTx := none } f dur t
      else s
  | .bypass f dur t =>
      { s with transmitted := s.transmitted ++ [(f, t, t + dur)] }

def txRun (s : TxState) (es : List TxEvent) : TxState := es.foldl txStep s

/-- HTTP::handleHTTPGet lines 341-354: a response whose request priority is
at least PRIORITY_HIGH is sent via sendDelayed directly on the output gate
after serviceTime * 0.5, bypassing sendPacketOnGate and the txQueue; lower
priorities are pushed into the responseQueue instead (returning none here). -/
def httpGetResponseDispatch (priority : Nat) (serviceTime now : Rat) :
    Option Rat :=
  if priority ≥ PRIORITY_HIGH then some (now + serviceTime * (1 / 2)) else none

/-- Claim C1 fails on the code as a universal statement over every emitted
frame: HTTP::handleHTTPGet emits high-priority responses with sendDelayed,
bypassing the per-gate serializer. Concretely: frame 1 (duration 1) is
handed to the idle channel at time 0 and occupies it until 1; a
priority-high GET arriving at 1/5 with serviceTime 3/5 is dispatched to the
gate at instant 1/2; the resulting channel occupancies, from 0 to 1 and from
1/2 to 4/5, overlap, so two frames are in transmission at once instead of
the second being appended to the FIFO. -/
theorem C1_bypass_overlaps_transmission :
    httpGetResponseDispatch PRIORITY_HIGH (3 / 5) (1 / 5) = some (1 / 2)
    ∧ (txRun txInit
        [TxEvent.enqueue 1 1 0, TxEvent.bypass 2 (3 / 10) (1 / 2)]).transmitted
        = [(1, 0, 1), (2, 1 / 2, 4 / 5)]
    ∧ (1 / 2 : Rat) < 1 ∧ (0 : Rat) < 4 / 5 := by
  refine ⟨?_, ?_, by norm_num, by norm_num⟩
  · norm_num [httpGetResponseDispatch, PRIORITY_HIGH]
  · norm_num [txRun, txStep, txInit, startTransmission, List.foldl]

/-! ## Router forwarding plane (src/Modules/router.cc,
Router::forwardPacket lines 359-394, outputQueues declared at lines 37-38
and filled nowhere else; no drain path exists outside finish()) -/

/-- A non-control frame as Router::forwardPacket reads it: destination,
priority, byte length, and the arrival gate index used for flooding. -/
structure Frame where
  dst : Int
  priority : Int
  byteLength : Int
  arrivalGate : Int
  deriving DecidableEq, Repr

/-- The forwarding-plane state touched by Router::forwardPacket: the
per-gate priority queues (modelled as lists; only membership and emptiness
matter, no element is ever popped outside finish()) and the per-gate
utilization counters. -/
structure FwdState where
  outputQueues : Int → List Frame
  linkUtilization : Int → Rat

/-- What Router::forwardPacket does with one frame: hand it to
sendPacketOnGate for a gate, push it into a gate's priority queue, or flood
it to the listed gates. -/
inductive FwdAction where
  | direct (gate : Int) (f : Frame)
  | pushed (gate : Int) (f : Frame)
  | flooded (gates : List Int) (f : Frame)
  deriving DecidableEq, Repr

/-- The gate list of the flood fallback: every output gate except the
arrival gate. -/
def routerFloodGates (numGates : Nat) (inIdx : Int) : List Int :=
  ((List.range numGates).map (fun i => (i : Int))).filter (fun i => i ≠ inIdx)

/-- Router::forwardPacket: on a routing-table hit with a valid next-hop
gate, accrue the frame's size into that gate's utilization and either hand
the frame to the transmitter (priority at least PRIORITY_HIGH, or the
gate's priority queue empty) or push it into the gate's priority queue;
otherwise flood to every gate but the arrival gate. -/
def forwardPacket (rt : Int → Option RouteEntry) (numGates : Nat)
    (s : FwdState) (f : Frame) : FwdState × FwdAction :=
  match rt f.dst with
  | some e =>
      if 0 ≤ e.nextHop ∧ e.nextHop < (numGates : Int) then
        if 2 ≤ f.priority ∨ s.outputQueues e.nextHop = [] then
          ({ outputQueues := s.outputQueues,
             linkUtilization := fun i => if i = e.nextHop then
                 s.linkUtilization e.nextHop
                   + (if 0 < f.byteLength then (f.byteLength : Rat) else 1000)
                     / 1000000
               else s.linkUtilization i },
           .direct e.nextHop f)
        else
          ({ outputQueues := fun i => if i = e.nextHop then
                 f :: s.outputQueues e.nextHop
               else s.outputQueues i,
             linkUtilization := fun i => if i = e.nextHop then
                 s.linkUtilization e.nextHop
                   + (if 0 < f.byteLength then (f.byteLength : Rat) else 1000)
                     / 1000000
               else s.linkUtilization i },
           .pushed e.nextHop f)
      else
        (s, .flooded (routerFloodGates numGates f.arrivalGate) f)
  | none => (s, .flooded (routerFloodGates numGates f.arrivalGate) f)

/-- A run of the forwarding plane: the arriving non-control frames in
order, each processed against whatever routing table is current at its
arrival (the control plane may rewrite the table between arrivals but never
touches outputQueues). -/
def processFrames (numGates : Nat) :
    FwdState → List ((Int → Option RouteEntry) × Frame) →
    FwdState × List FwdAction
  | s, [] => (s, [])
  | s, p :: rest =>
      let r := forwardPacket p.1 numGates s p.2
      let rest' := processFrames numGates r.1 rest
      (rest'.1, r.2 :: rest'.2)

/-- Initial forwarding state (Router::initialize lines 68-75): every gate
gets a fresh empty priority queue and zero utilization. -/
def fwdInit : FwdState := ⟨fun _ => [], fun _ => 0⟩

theorem forwardPacket_empty_queues (rt : Int → Option RouteEntry)
    (numGates : Nat) (s : FwdState) (f : Frame)
    (hq : ∀ g, s.outputQueues g = []) :
    (∀ g, (forwardPacket rt numGates s f).1.outputQueues g = [])
    ∧ (∀ g f', (forwardPacket rt numGates s f).2 ≠ .pushed g f') := by
  cases hd : rt f.dst with
  | none =>
    refine ⟨?_, ?_⟩
    · intro g
      simp only [forwardPacket, hd]
      exact hq g
    · intro g f' h
      simp only [forwardPacket, hd] at h
      cases h
  | some e =>
    by_cases hg : 0 ≤ e.nextHop ∧ e.nextHop < (numGates : Int)
    · have hcond : 2 ≤ f.priority ∨ s.outputQueues e.nextHop = [] :=
        Or.inr (hq _)
      refine ⟨?_, ?_⟩
      · intro g
        simp only [forwardPacket, hd, if_pos hg, if_pos hcond]
        exact hq g
      · intro g f' h
        simp only [forwardPacket, hd, if_pos hg, if_pos hcond] at h
        cases h
    · refine ⟨?_, ?_⟩
      · intro g
        simp only [forwardPacket, hd, if_neg hg]
        exact hq g
      · intro g f' h
        simp only [forwardPacket, hd, if_neg hg] at h
        cases h

theorem processFrames_empty_queues (numGates : Nat) :
    ∀ (trace : List ((Int → Option RouteEntry) × Frame)) (s : FwdState),
      (∀ g, s.outputQueues g = []) →
      (∀ g, (processFrames numGates s trace).1.outputQueues g = [])
      ∧ (∀ a ∈ (processFrames numGates s trace).2,
          ∀ g f, a ≠ FwdAction.pushed g f) := by
  intro trace
  induction trace with
  | nil =>
    intro s hq
    exact ⟨hq, by simp [processFrames]⟩
  | cons p rest ih =>
    intro s hq
    obtain ⟨h1, h2⟩ := forwardPacket_empty_queues p.1 numGates s p.2 hq
    obtain ⟨ih1, ih2⟩ := ih (forwardPacket p.1 numGates s p.2).1 h1
    refine ⟨?_, ?_⟩
    · intro g
      simpa [processFrames] using ih1 g
    · intro a ha g f
      simp only [processFrames, List.mem_cons] at ha
      rcases ha with rfl | ha
      · exact h2 g f
      · exact ih2 a ha g f

/-- Claim C10: the router's per-gate priority output queues stay empty
forever. From the initial all-empty state, processing any sequence of
arriving frames (under any evolution of the routing table) leaves every
queue empty and never takes the push branch; a frame is pushed only when
the target queue is already non-empty; and under empty queues every frame
with a routing-table hit on a valid gate is handed directly to the
transmitter. -/
theorem C10_output_queues_stay_empty (numGates : Nat)
    (trace : List ((Int → Option RouteEntry) × Frame)) :
    (∀ g, (processFrames numGates fwdInit trace).1.outputQueues g = [])
    ∧ (∀ a ∈ (processFrames numGates fwdInit trace).2,
        ∀ g f, a ≠ FwdAction.pushed g f)
    ∧ (∀ (rt : Int → Option RouteEntry) (s : FwdState) (f : Frame) (g : Int)
         (f' : Frame),
        (forwardPacket rt numGates s f).2 = FwdAction.pushed g f' →
        s.outputQueues g ≠ [])
    ∧ (∀ (rt : Int → Option RouteEntry) (s : FwdState) (f : Frame)
         (e : RouteEntry),
        (∀ g, s.outputQueues g = []) → rt f.dst = some e →
        0 ≤ e.nextHop → e.nextHop < (numGates : Int) →
        (forwardPacket rt numGates s f).2 = FwdAction.direct e.nextHop f) := by
  obtain ⟨h1, h2⟩ :=
    processFrames_empty_queues numGates trace fwdInit (fun _ => rfl)
  refine ⟨h1, h2, ?_, ?_⟩
  · intro rt s f g f' hp
    cases hd : rt f.dst with
    | none =>
      simp only [forwardPacket, hd] at hp
      cases hp
    | some e =>
      by_cases hg : 0 ≤ e.nextHop ∧ e.nextHop < (numGates : Int)
      · by_cases hc : 2 ≤ f.priority ∨ s.outputQueues e.nextHop = []
        · simp only [forwardPacket, hd, if_pos hg, if_pos hc] at hp
          cases hp
        · simp only [forwardPacket, hd, if_pos hg, if_neg hc] at hp
          cases hp
          push_neg at hc
          exact hc.2
      · simp only [forwardPacket, hd, if_neg hg] at hp
        cases hp
  · intro rt s f e hq hd h0 hn
    simp only [forwardPacket, hd, if_pos (And.intro h0 hn), if_pos (Or.inr (hq e.nextHop))]

/-- Witness for C10: one normal-priority frame for destination 9 routed via
gate 1 of a two-gate router from the initial state is handed directly to
the transmitter and leaves the queues empty. -/
theorem C10_output_queues_stay_empty_witness :
    (processFrames 2 fwdInit
        [(fun d => if d = 9 then
            some { destAddr := 9, nextHop := 1, metric := 1, bandwidth := 100,
                   delay := 1, hopCount := 1, lastUpdate := 0 }
          else none,
          { dst := 9, priority := 1, byteLength := 1000, arrivalGate := 0 })]
      ).1.outputQueues 1 = []
    ∧ (forwardPacket
        (fun d => if d = 9 then
            some { destAddr := 9, nextHop := 1, metric := 1, bandwidth := 100,
                   delay := 1, hopCount := 1, lastUpdate := 0 }
          else none) 2 fwdInit
        { dst := 9, priority := 1, byteLength := 1000, arrivalGate := 0 }).2
      = FwdAction.direct 1
          { dst := 9, priority := 1, byteLength := 1000, arrivalGate := 0 } := by
  constructor
  · exact (C10_output_queues_stay_empty 2 _).1 1
  · exact (C10_output_queues_stay_empty 2 []).2.2.2
      (fun d => if d = 9 then
          some { destAddr := 9, nextHop := 1, metric := 1, bandwidth := 100,
                 delay := 1, hopCount := 1, lastUpdate := 0 }
        else none) fwdInit
      { dst := 9, priority := 1, byteLength := 1000, arrivalGate := 0 }
      { destAddr := 9, nextHop := 1, metric := 1, bandwidth := 100,
        delay := 1, hopCount := 1, lastUpdate := 0 }
      (fun _ => rfl) (by simp) (by norm_num) (by norm_num)

end HybridNet
